import Mathlib

/-!
Verification development for the Activity Stream ordered-collection core of
the JSONkeeper repository (`util/activity_stream.py` and the stream membership
check in `jsonkeeper/subroutines.py`).

Shallow embedding conventions:
* Python object references to `ASOrderedCollectionPage` objects are heap
  tokens (`Nat` indices into `Col.heap`).  After `from_json` the attributes
  `prev` and `next` can instead hold plain strings (the neighbour ids read
  from the JSON blob); `Ref` covers both cases.
* Timestamps (`datetime` values obtained from `dateutil.parser.parse`) are
  modelled as `Int`, ordered as datetimes are; `datetime.fromtimestamp(0)`
  (the epoch) is `0`.
* A page dictionary entry for `prev` and `next` is either absent (key was
  popped or never set), an explicit JSON `null`, or a `type`/`id` stub;
  `DicEntry` records exactly this, which is what `json.dumps` serialises.
* Calls that Python would answer with an uncaught exception (attribute
  access on `None` or on a `str`) are modelled as `Except.error`; the
  `while True` insertion scan takes a fuel parameter, `none` meaning the
  bound was exhausted (the Python loop did not terminate within it).
* `store()` only persists the current dictionary and does not change any
  in-memory state, so it is omitted.
-/

namespace JKAS

/-- A value held by a page attribute `prev`/`next`: either a reference to a
page object on the heap or a plain string id (as left behind by `from_json`). -/
inductive Ref where
  | pobj (tok : Nat)
  | pstr (s : String)
deriving DecidableEq, Repr

/-- State of the `prev`/`next` entry of a page dictionary: key absent,
explicit `null`, or a `type`/`id` stub (only the id varies). -/
inductive DicEntry where
  | absent
  | null
  | stub (id : String)
deriving DecidableEq, Repr

/-- One Activity inside `orderedItems`: its `type`, the `@id` of its
`object`, the `@id` of its `origin`, and its parsed `endTime`. -/
structure Act where
  typ : String
  objectAtId : String
  originAtId : String
  endTime : Int
deriving DecidableEq, Repr

/-- An `ASOrderedCollectionPage`: its dictionary id, its `orderedItems`, the
`prev`/`next` attributes, and the dictionary entries for `partOf`, `prev`
and `next`. -/
structure Page where
  ldId : String
  items : List Act
  prev : Option Ref
  next : Option Ref
  dicPartOf : Option String
  dicPrev : DicEntry
  dicNext : DicEntry
deriving DecidableEq, Repr

/-- An `ASOrderedCollection`: its dictionary id, the heap of page objects,
the `first`/`last`/`total_items`/`page_map` attributes and the dictionary
entries `first`/`last`/`totalItems` kept by `_update_dict`. -/
structure Col where
  colId : String
  heap : List Page
  first : Option Nat
  last : Option Nat
  total_items : Int
  page_map : List (String × Nat)
  dicFirst : Option String
  dicLast : Option String
  dicTotal : Int
deriving DecidableEq, Repr

/-- `ASOrderedCollectionPage.__init__`: fresh page, no `prev`/`next`
attributes, dictionary has `partOf = None` and no `prev`/`next` keys. -/
def mkPage (ldId : String) (items : List Act) : Page :=
  ⟨ldId, items, none, none, none, .absent, .absent⟩

/-- `ASOrderedCollection.__init__`: empty collection. -/
def newCol (colId : String) : Col :=
  ⟨colId, [], none, none, 0, [], none, none, 0⟩

def getPage (c : Col) (t : Nat) : Option Page :=
  c.heap[t]?

def getPageD (c : Col) (t : Nat) : Page :=
  (getPage c t).getD (mkPage "" [])

/-- Reading the dictionary id (key `id`) of the page behind token `t`. -/
def ldIdAtD (c : Col) (t : Nat) : String :=
  (getPageD c t).ldId

/-- In-place mutation of the page object behind token `t` (a no-op for an
out-of-range token, which cannot arise from the Python code). -/
def modifyPage (c : Col) (t : Nat) (f : Page → Page) : Col :=
  { c with heap := c.heap.set t (f (getPageD c t)) }

/-- `set_prev(None)`: attribute cleared, dictionary key popped. -/
def pageSetPrevNone (p : Page) : Page :=
  { p with prev := none, dicPrev := .absent }

/-- `set_prev(other)` for a page object `other` (token `u`, id `uid`). -/
def pageSetPrevObj (u : Nat) (uid : String) (p : Page) : Page :=
  { p with prev := some (.pobj u), dicPrev := .stub uid }

/-- `set_prev("")`: the empty string is falsy, so the key is popped while the
attribute keeps the string. -/
def pageSetPrevStrEmpty (p : Page) : Page :=
  { p with prev := some (.pstr ""), dicPrev := .absent }

/-- `unset_prev`: attribute cleared but the dictionary entry is set to an
explicit `None` (serialised as JSON `null`), not popped. -/
def pageUnsetPrev (p : Page) : Page :=
  { p with prev := none, dicPrev := .null }

/-- `set_next(None)`. -/
def pageSetNextNone (p : Page) : Page :=
  { p with next := none, dicNext := .absent }

/-- `set_next(other)` for a page object `other` (token `u`, id `uid`). -/
def pageSetNextObj (u : Nat) (uid : String) (p : Page) : Page :=
  { p with next := some (.pobj u), dicNext := .stub uid }

/-- `set_next("")`. -/
def pageSetNextStrEmpty (p : Page) : Page :=
  { p with next := some (.pstr ""), dicNext := .absent }

/-- `unset_next`: explicit `None` stored in the dictionary. -/
def pageUnsetNext (p : Page) : Page :=
  { p with next := none, dicNext := .null }

/-- `unset_part_of`. -/
def pageUnsetPartOf (p : Page) : Page :=
  { p with dicPartOf := none }

/-- `set_part_of(col)`: stores the collection dictionary id. -/
def pageSetPartOf (colId : String) (p : Page) : Page :=
  { p with dicPartOf := some colId }

/-- Error raised when Python evaluates an attribute access on `None` or on a
`str` where a page object was expected. -/
def errAttr : String := "AttributeError"

/-- Outcome when the insertion scan falls off the list: the code prints
a broken-structure warning and the next loop iteration raises. -/
def errBroken : String := "OrderedCollection structure is broken"

/-- `ASOrderedCollectionPage.set_prev` called on the page behind token `t`
with argument `o`.  A non-empty string argument is truthy, so the dictionary
update would call `.get` on a `str` and raise. -/
def set_prev (c : Col) (t : Nat) (o : Option Ref) : Except String Col :=
  match o with
  | none => .ok (modifyPage c t pageSetPrevNone)
  | some (.pobj u) => .ok (modifyPage c t (pageSetPrevObj u (ldIdAtD c u)))
  | some (.pstr s) =>
      if s = "" then .ok (modifyPage c t pageSetPrevStrEmpty)
      else .error errAttr

/-- `ASOrderedCollectionPage.set_next`, symmetrically. -/
def set_next (c : Col) (t : Nat) (o : Option Ref) : Except String Col :=
  match o with
  | none => .ok (modifyPage c t pageSetNextNone)
  | some (.pobj u) => .ok (modifyPage c t (pageSetNextObj u (ldIdAtD c u)))
  | some (.pstr s) =>
      if s = "" then .ok (modifyPage c t pageSetNextStrEmpty)
      else .error errAttr

/-- `ASOrderedCollectionPage.end_time`: fold over `orderedItems` starting
from the epoch (`datetime.fromtimestamp(0)`, modelled as `0`), keeping the
later of the running value and each item endTime. -/
def end_time (p : Page) : Int :=
  p.items.foldl (fun latest itm => if itm.endTime > latest then itm.endTime else latest) 0

/-- `ASOrderedCollectionPage.after`: strictly later end time. -/
def after (p other : Page) : Bool :=
  end_time p > end_time other

/-- `ASOrderedCollection._update_dict`: copy `first`/`last`/`total_items`
into the dictionary (`first`/`last` as `type`/`id` stubs of which only the
id varies). -/
def update_dict (c : Col) : Col :=
  { c with
    dicFirst := c.first.map (ldIdAtD c),
    dicLast := c.last.map (ldIdAtD c),
    dicTotal := c.total_items }

/-- `self.page_map[key] = value`: dictionary update, overwriting silently. -/
def insertPM : List (String × Nat) → String → Nat → List (String × Nat)
  | [], k, v => [(k, v)]
  | (k0, v0) :: r, k, v =>
      if k0 = k then (k, v) :: r else (k0, v0) :: insertPM r k v

/-- The prelude of `ASOrderedCollection.add` before the branching:
`set_part_of`, the `page_map` entry (silently overwriting any page already
registered under the same id) and the count increment. -/
def addPrep (c : Col) (t : Nat) (pg : Page) : Col :=
  let c1 := modifyPage c t (pageSetPartOf c.colId)
  { c1 with
    page_map := insertPM c1.page_map pg.ldId t,
    total_items := c1.total_items + 1 }

/-- The backward insertion scan of `ASOrderedCollection.add` (the
`while True` loop), with cursor `cur` and the page being added behind
token `t`.  `none` means the fuel bound was exhausted. -/
def scan : Nat → Col → Nat → Option Ref → Option (Except String Col)
  | 0, _, _, _ => none
  | Nat.succ fuel, c, t, cur =>
    match cur with
    | none => some (.error errBroken)
    | some (.pstr _) => some (.error errAttr)
    | some (.pobj ct) =>
      match getPage c ct, getPage c t with
      | some cpg, some tpg =>
        if after tpg cpg then
          -- somewhere inbetween
          match set_next c ct (some (.pobj t)) with
          | .error e => some (.error e)
          | .ok c1 =>
            match set_prev c1 t (some (.pobj ct)) with
            | .error e => some (.error e)
            | .ok c2 =>
              match c.last with
              | none => some (.error errAttr)
              | some l =>
                -- the source tests inequality; the branches are swapped here
                if ldIdAtD c2 ct = ldIdAtD c2 l then
                  -- at the very end
                  some (.ok { c2 with last := some t })
                else
                  match (getPageD c2 ct).next with
                  | some (.pobj u) =>
                    match set_prev c2 u (some (.pobj t)) with
                    | .error e => some (.error e)
                    | .ok c3 =>
                      match set_next c3 t ((getPageD c3 ct).next) with
                      | .error e => some (.error e)
                      | .ok c4 => some (.ok c4)
                  | _ => some (.error errAttr)
        else
          match c.first with
          | none => some (.error errAttr)
          | some f =>
            if ldIdAtD c ct = ldIdAtD c f ∧ tpg.prev = none then
              -- at the very beginning
              match set_prev { c with first := some t } ct (some (.pobj t)) with
              | .error e => some (.error e)
              | .ok cB =>
                match set_next cB t (some (.pobj ct)) with
                | .error e => some (.error e)
                | .ok cC => some (.ok cC)
            else
              scan fuel c t cpg.prev
      | _, _ => some (.error errAttr)

/-- `ASOrderedCollection.add` on the page object behind token `t`. -/
def add (fuel : Nat) (c : Col) (t : Nat) : Option (Except String Col) :=
  match getPage c t with
  | none => some (.error errAttr)
  | some pg =>
    let c2 := addPrep c t pg
    if c2.total_items = 1 then
      some (.ok (update_dict { c2 with first := some t, last := some t }))
    else if c2.total_items > 1 then
      match scan fuel c2 t (c2.last.map Ref.pobj) with
      | none => none
      | some (.error e) => some (.error e)
      | some (.ok c3) => some (.ok (update_dict c3))
    else
      some (.ok (update_dict c2))

/-- Allocate a fresh page object on the heap and `add` it, with enough fuel
for any intact list. -/
def addPage (c : Col) (p : Page) : Option (Except String Col) :=
  add (c.heap.length + 1) { c with heap := c.heap ++ [p] } c.heap.length

/-- The branch tree of `ASOrderedCollection.remove` between the decrement of
`total_items` and the trailing unset calls; `pg` is the page object being
removed, read before any mutation.  `c` already carries the decremented
count. -/
def removeCore (c : Col) (pg : Page) : Except String Col :=
  if c.total_items = 0 then
    .ok { c with first := none, last := none }
  else if c.total_items > 0 then
    match c.last with
    | none => .error errAttr
    | some l =>
      if pg.ldId = ldIdAtD c l then
        -- removed page is the last one: relink last to its prev
        match pg.prev with
        | some (.pobj u) => .ok (modifyPage { c with last := some u } u pageUnsetNext)
        | _ => .error errAttr
      else
        match c.first with
        | none => .error errAttr
        | some f =>
          if pg.ldId = ldIdAtD c f then
            match pg.next with
            | some (.pobj v) => .ok (modifyPage { c with first := some v } v pageUnsetPrev)
            | _ => .error errAttr
          else
            -- interior page: bridge the neighbours
            match pg.prev with
            | some (.pobj u) =>
              match set_next c u pg.next with
              | .error e => .error e
              | .ok c2 =>
                match pg.next with
                | some (.pobj v) =>
                  match set_prev c2 v pg.prev with
                  | .error e => .error e
                  | .ok c3 => .ok c3
                | _ => .error errAttr
            | _ => .error errAttr
  else
    .ok c

/-- `ASOrderedCollection.remove` on the page object behind token `t`. -/
def remove (c : Col) (t : Nat) : Except String Col :=
  match getPage c t with
  | none => .error errAttr
  | some pg =>
    (removeCore { c with total_items := c.total_items - 1 } pg).map
      (fun c2 =>
        update_dict
          (modifyPage (modifyPage (modifyPage c2 t pageUnsetPartOf) t pageUnsetPrev)
            t pageUnsetNext))

/-- The parsed JSON blob of a stored page, as consumed by
`ASOrderedCollectionPage.from_json`. -/
structure PageJson where
  ldId : String
  items : List Act
  partOf : Option String
  prev : DicEntry
  next : DicEntry
deriving DecidableEq, Repr

/-- The parsed JSON blob of the stored collection, as consumed by
`restore_from_json` (only the fields the code later reads). -/
structure ColDic where
  colId : String
  dicFirst : Option String
  dicLast : Option String
  dicTotal : Int
deriving DecidableEq, Repr

/-- `ASOrderedCollectionPage.from_json` on a freshly constructed page: the
dictionary is replaced by the blob and, when the blob has a truthy
`prev`/`next` entry, the attribute is set to the neighbour id string. -/
def from_json (pj : PageJson) : Page :=
  { ldId := pj.ldId
    items := pj.items
    dicPartOf := pj.partOf
    dicPrev := pj.prev
    dicNext := pj.next
    prev := match pj.prev with
            | .stub i => some (.pstr i)
            | _ => none
    next := match pj.next with
            | .stub i => some (.pstr i)
            | _ => none }

/-- Serialising a page object back to its JSON blob (`get_json`). -/
def page_to_json (p : Page) : PageJson :=
  ⟨p.ldId, p.items, p.dicPartOf, p.dicPrev, p.dicNext⟩

/-- The loop of `restore_from_json`: one `add` per stored page blob. -/
def restore_loop : Col → List PageJson → Option (Except String Col)
  | c, [] => some (.ok c)
  | c, pj :: rest =>
    match addPage c (from_json pj) with
    | none => none
    | some (.error e) => some (.error e)
    | some (.ok c2) => restore_loop c2 rest

/-- `ASOrderedCollection.restore_from_json`: the dictionary is replaced by
the parsed collection blob (the member attributes keep their fresh values),
then every page blob is parsed and re-added. -/
def restore_from_json (c : Col) (cd : ColDic) (pjs : List PageJson) :
    Option (Except String Col) :=
  restore_loop
    { c with colId := cd.colId, dicFirst := cd.dicFirst,
             dicLast := cd.dicLast, dicTotal := cd.dicTotal } pjs

/-- Forward traversal along `next` attributes, collecting visited tokens;
stops on a missing page, a string reference, or exhausted fuel. -/
def walkTok (c : Col) : Nat → Option Ref → List Nat
  | 0, _ => []
  | _, none => []
  | _, some (.pstr _) => []
  | Nat.succ fuel, some (.pobj t) =>
    t :: walkTok c fuel (getPageD c t).next

/-- Dictionary ids along the forward traversal from `first`, one step per
counted item. -/
def walkIds (c : Col) : List String :=
  (walkTok c c.total_items.toNat (c.first.map Ref.pobj)).map (ldIdAtD c)

/-- Nondecreasing check for a list of timestamps. -/
def sortedTimes : List Int → Bool
  | [] => true
  | [_] => true
  | a :: b :: r => decide (a ≤ b) && sortedTimes (b :: r)

/-- The order invariant as the specification states it: walking `next` from
`first` for `totalItems` steps visits that many pages, in nondecreasing
end-time order, and ends at `last`. -/
def orderOk (c : Col) : Bool :=
  let n := c.total_items.toNat
  let w := walkTok c n (c.first.map Ref.pobj)
  decide (w.length = n) &&
    sortedTimes (w.map (fun t => end_time (getPageD c t))) &&
    decide (w.getLast? = c.last)

/-- Specification-side description of the insertion scan falling off the
list: starting at the cursor, repeatedly failing both the insertion test and
the at-the-beginning test and stepping to a `prev` that finally is `None`. -/
def fallsOff : Nat → Col → Nat → Option Ref → Bool
  | 0, _, _, _ => false
  | Nat.succ fuel, c, t, cur =>
    match cur with
    | none => true
    | some (.pstr _) => false
    | some (.pobj ct) =>
      match getPage c ct, getPage c t with
      | some cpg, some tpg =>
        if after tpg cpg then false
        else
          match c.first with
          | none => false
          | some f =>
            if ldIdAtD c ct = ldIdAtD c f ∧ tpg.prev = none then false
            else fallsOff fuel c t cpg.prev
      | _, _ => false

/-- The scan inside `add` (after the `set_part_of`, `page_map` and count
updates) falls off the list. -/
def addScanFallsOff (fuel : Nat) (c : Col) (t : Nat) : Bool :=
  match getPage c t with
  | none => false
  | some pg =>
    let c2 := addPrep c t pg
    decide (c2.total_items > 1) && fallsOff fuel c2 t (c2.last.map Ref.pobj)

/-- The value serialised at key `prev` of a page: `none` when the key is
omitted from the JSON output, otherwise the JSON value. -/
def prevEntry (p : Page) : Option (Option String) :=
  match p.dicPrev with
  | .absent => none
  | .null => some none
  | .stub i => some (some i)

/-- The value serialised at key `next` of a page. -/
def nextEntry (p : Page) : Option (Option String) :=
  match p.dicNext with
  | .absent => none
  | .null => some none
  | .stub i => some (some i)

/-- One pass over the characters, keeping the (reversed) segment seen since
the most recent slash. -/
def lastSegAux : List Char → List Char → List Char
  | [], acc => acc.reverse
  | ch :: rest, acc =>
      if ch = '/' then lastSegAux rest [] else lastSegAux rest (ch :: acc)

/-- Python `s.split(slash)[-1]`: the last slash-separated segment. -/
def lastSeg (s : String) : String :=
  String.mk (lastSegAux s.toList [])

/-- The inner loop of `is_in_actstr` over the activities of one page.  The
loop variable `doc_id` starts as the function parameter and is REBOUND by the
`Create`/`Reference`/`Offer` branches, after which the membership test
compares the rebound variable with itself, which is always true; the first
component reports whether the loop returned `True`, the second the final
value of the shadowed variable. -/
def actsCheck : String → List Act → Bool × String
  | d, [] => (false, d)
  | d, a :: rest =>
    let d2 := if a.typ = "Create" then lastSeg a.objectAtId
              else if a.typ = "Reference" ∨ a.typ = "Offer" then lastSeg a.originAtId
              else d
    if d2 = d2 then (true, d2) else actsCheck d2 rest

/-- The outer loop of `is_in_actstr` over the stored page blobs, threading
the shadowed `doc_id` variable from page to page. -/
def pagesCheck : String → List PageJson → Bool
  | _, [] => false
  | d, pj :: rest =>
    match actsCheck d pj.items with
    | (true, _) => true
    | (false, d2) => pagesCheck d2 rest

/-- `is_in_actstr(doc_id)` from `jsonkeeper/subroutines.py`: when a stored
collection blob exists, a fresh collection is restored from it together with
all stored page blobs (the restored object is never used afterwards but its
construction can raise), then the page blobs are scanned with the shadowed
`doc_id` comparison. -/
def is_in_actstr (docId : String) (coll : Option ColDic)
    (pageDocs : List PageJson) : Option (Except String Bool) :=
  match coll with
  | none => some (.ok false)
  | some cd =>
    match restore_from_json (newCol "") cd pageDocs with
    | none => none
    | some (.error e) => some (.error e)
    | some (.ok _) => some (.ok (pagesCheck docId pageDocs))

/-- What the specification means by the membership check: some activity of
some stored page references the document, via the `object` of a `Create` or
the `origin` of a `Reference`/`Offer` (comparing the trailing id segment). -/
def referencesDoc (docId : String) (pageDocs : List PageJson) : Bool :=
  pageDocs.any fun pj =>
    pj.items.any fun a =>
      (a.typ == "Create" && lastSeg a.objectAtId == docId) ||
      ((a.typ == "Reference" || a.typ == "Offer") && lastSeg a.originAtId == docId)

/-- The Activity Stream gate of `handle_delete_request`: a `Delete` activity
is emitted only when the stream is served, the stored document is a JSON
dictionary, and `is_in_actstr` returns true. -/
def handle_delete_emits (serveAs isDict : Bool) (docId : String)
    (coll : Option ColDic) (pageDocs : List PageJson) : Option (Except String Bool) :=
  if serveAs && isDict then is_in_actstr docId coll pageDocs
  else some (.ok false)

/-- An activity carrying only an end time, for the ordering scenarios. -/
def actAt (t : Int) : Act :=
  ⟨"Create", "", "", t⟩

/-- Build a collection by allocating and adding one single-activity page per
given id and end time, in the given arrival order. -/
def buildCol : Col → List (String × Int) → Option (Except String Col)
  | c, [] => some (.ok c)
  | c, (i, t) :: rest =>
    match addPage c (mkPage i [actAt t]) with
    | none => none
    | some (.error e) => some (.error e)
    | some (.ok c2) => buildCol c2 rest

/-- Extract the collection from a successful outcome. -/
def getOk : Option (Except String Col) → Col
  | some (.ok c) => c
  | _ => newCol ""

/-- Did the computation finish without raising? -/
def isOkCol : Option (Except String Col) → Bool
  | some (.ok _) => true
  | _ => false

/-- Extract the collection from a successful `remove`. -/
def getOkE : Except String Col → Col
  | .ok c => c
  | .error _ => newCol ""

/-- Scenario for C1: pages with strictly increasing end times 1, 2, 3
arriving in the order 1, 3, 2, so that the last add must insert between
two existing pages. -/
def c1Build : Option (Except String Col) :=
  buildCol (newCol "col") [("a", 1), ("c", 3), ("b", 2)]

/-- Scenario for C2: pages A (end time 1) and C (end time 3) linked, then
B (end time 2) added. -/
def c2Build : Option (Except String Col) :=
  buildCol (newCol "col") [("a", 1), ("c", 3), ("b", 2)]

def c2Res : Col := getOk c2Build

/-- Scenario for C3: the original collection, built in time order. -/
def c3Build : Option (Except String Col) :=
  buildCol (newCol "col") [("a", 1), ("b", 2), ("c", 3)]

def c3Orig : Col := getOk c3Build

def dummyPageJson : PageJson := ⟨"", [], none, .absent, .absent⟩

/-- The serialised page blobs of the original collection. -/
def c3Blobs : List PageJson := c3Orig.heap.map page_to_json

/-- The same blobs presented in the shuffled order c, a, b. -/
def c3Shuffled : List PageJson :=
  [c3Blobs.getD 2 dummyPageJson, c3Blobs.getD 0 dummyPageJson, c3Blobs.getD 1 dummyPageJson]

/-- The serialised collection blob of the original collection. -/
def c3Dic : ColDic := ⟨c3Orig.colId, c3Orig.dicFirst, c3Orig.dicLast, c3Orig.dicTotal⟩

/-- Restoring a fresh collection from the shuffled blobs. -/
def c3Restored : Option (Except String Col) :=
  restore_from_json (newCol "") c3Dic c3Shuffled

/-- Scenario for C4: a collection already holding a page with id `a`. -/
def c4Base : Col := getOk (buildCol (newCol "col") [("a", 1)])

/-- A second, distinct page object whose id is also `a`. -/
def c4DupPage : Page := mkPage "a" [actAt 2]

/-- The heap of `c4Base` extended by the duplicate page object (token 1). -/
def c4Heap : Col := { c4Base with heap := c4Base.heap ++ [c4DupPage] }

/-- Adding the duplicate page. -/
def c4Dup : Option (Except String Col) := addPage c4Base c4DupPage

/-- Scenario for C5: a one-page collection and a page to add whose `prev`
attribute is a leftover string id (as `from_json` produces), so the
at-the-beginning test never fires and the scan steps past `first`. -/
def c5A : Page := mkPage "a" [actAt 10]

def c5B : Page := { mkPage "b" [actAt 5] with prev := some (.pstr "x") }

def c5Col : Col :=
  { colId := "col", heap := [c5A, c5B], first := some 0, last := some 0,
    total_items := 1, page_map := [("a", 0)], dicFirst := some "a",
    dicLast := some "a", dicTotal := 1 }

/-- Scenario for C7: a page whose only activity ended before the epoch. -/
def c7Neg : Page := mkPage "p" [⟨"Create", "", "", -1⟩]

def c7W : Page := mkPage "w" [⟨"Create", "", "", 3⟩]

def c7Q : Page := mkPage "q" [⟨"Create", "", "", 1⟩]

/-- Scenario for C8: one stored stream page whose only activity is a
`Create` for the document `abc`; the membership query asks for a different
document id. -/
def c8Pages : List PageJson :=
  [⟨"p1", [⟨"Create", "http://ex.org/JSONkeeper/abc", "", 5⟩], some "colid", .absent, .absent⟩]

def c8Cd : ColDic := ⟨"colid", some "p1", some "p1", 1⟩

/-- Scenario for C9: pages with a set `prev` (respectively `next`) link. -/
def c9Page : Page := pageSetPrevObj 0 "a" (mkPage "b" [])

def c9PageN : Page := pageSetNextObj 0 "c" (mkPage "b" [])

/-- Scenario for C10: a one-page collection, an add of a second page, and a
remove of the sole page. -/
def c10One : Col := getOk (buildCol (newCol "col") [("a", 1)])

def c10AddCol : Col := { c10One with heap := c10One.heap ++ [mkPage "b" [actAt 2]] }

def c10AddRes : Col := getOk (add 2 c10AddCol 1)

def c10RemRes : Col := getOkE (remove c10One 0)

/-- The synchronisation invariant `_update_dict` is meant to maintain:
the dictionary mirrors `total_items` and holds the id stubs of
`first`/`last` (or `None`). -/
def dict_synced (c : Col) : Prop :=
  c.dicTotal = c.total_items ∧
  c.dicFirst = c.first.map (ldIdAtD c) ∧
  c.dicLast = c.last.map (ldIdAtD c)

/-- The boolean answer of a membership query that finished without raising. -/
def okBoolOf : Option (Except String Bool) → Option Bool
  | some (.ok b) => some b
  | _ => none

theorem if_gt_eq_max (a x : Int) : (if x > a then x else a) = max a x := by
  rcases le_total a x with h | h
  · rcases lt_or_eq_of_le h with h2 | h2
    · simp [h2, max_eq_right h]
    · subst h2; simp
  · have hx : ¬ x > a := not_lt.mpr h
    simp [hx, max_eq_left h]

theorem foldl_step_eq (l : List Act) (a : Int) :
    l.foldl (fun latest itm => if itm.endTime > latest then itm.endTime else latest) a
      = (l.map Act.endTime).foldl max a := by
  induction l generalizing a with
  | nil => rfl
  | cons x xs ih =>
    simp only [List.foldl, List.map]
    rw [ih, if_gt_eq_max]

theorem foldl_max_init (t : List Int) (a b : Int) :
    t.foldl max (max a b) = max a (t.foldl max b) := by
  induction t generalizing b with
  | nil => rfl
  | cons c r ih =>
    simp only [List.foldl]
    rw [max_assoc, ih]

theorem max?_foldl (xs : List Int) (m : Int) (h : xs.max? = some m) :
    xs.foldl max 0 = max 0 m := by
  cases xs with
  | nil => simp [List.max?] at h
  | cons x t =>
    have hm : m = t.foldl max x := by
      simp [List.max?] at h
      omega
    subst hm
    simpa using foldl_max_init t 0 x

theorem lookup_insertPM (m : List (String × Nat)) (k : String) (v : Nat) :
    List.lookup k (insertPM m k v) = some v := by
  induction m with
  | nil => simp [insertPM, List.lookup]
  | cons h t ih =>
    obtain ⟨k0, v0⟩ := h
    by_cases hk : k0 = k
    · simp [insertPM, hk, List.lookup]
    · simp only [insertPM, if_neg hk, List.lookup]
      have : (k == k0) = false := by
        simp [hk]
        exact fun he => hk he.symm
      rw [this]
      exact ih

theorem modifyPage_page_map (c : Col) (t : Nat) (f : Page → Page) :
    (modifyPage c t f).page_map = c.page_map := rfl

theorem modifyPage_total (c : Col) (t : Nat) (f : Page → Page) :
    (modifyPage c t f).total_items = c.total_items := rfl

theorem set_prev_ok (c : Col) (t : Nat) (o : Option Ref) (c2 : Col)
    (h : set_prev c t o = .ok c2) :
    c2.page_map = c.page_map ∧ c2.total_items = c.total_items := by
  cases o with
  | none =>
    simp [set_prev] at h
    subst h; exact ⟨rfl, rfl⟩
  | some r =>
    cases r with
    | pobj u =>
      simp [set_prev] at h
      subst h; exact ⟨rfl, rfl⟩
    | pstr s =>
      by_cases hs : s = "" <;> simp [set_prev, hs] at h
      subst h; exact ⟨rfl, rfl⟩

theorem set_next_ok (c : Col) (t : Nat) (o : Option Ref) (c2 : Col)
    (h : set_next c t o = .ok c2) :
    c2.page_map = c.page_map ∧ c2.total_items = c.total_items := by
  cases o with
  | none =>
    simp [set_next] at h
    subst h; exact ⟨rfl, rfl⟩
  | some r =>
    cases r with
    | pobj u =>
      simp [set_next] at h
      subst h; exact ⟨rfl, rfl⟩
    | pstr s =>
      by_cases hs : s = "" <;> simp [set_next, hs] at h
      subst h; exact ⟨rfl, rfl⟩

theorem scan_ok_preserve (fuel : Nat) (c : Col) (t : Nat) (cur : Option Ref) (r : Col)
    (h : scan fuel c t cur = some (.ok r)) :
    r.page_map = c.page_map ∧ r.total_items = c.total_items := by
  induction fuel generalizing cur with
  | zero => simp [scan] at h
  | succ n ih =>
    cases cur with
    | none => simp [scan] at h
    | some rr =>
      cases rr with
      | pstr s => simp [scan] at h
      | pobj ct =>
        simp only [scan] at h
        split at h
        · rename_i cpg tpg hgc hgt
          split at h
          · -- insertion branch
            split at h
            · simp at h
            · rename_i c1 hs1
              split at h
              · simp at h
              · rename_i c2 hs2
                split at h
                · simp at h
                · split at h
                  · -- at the very end
                    have h2 : ({ c2 with last := some t } : Col) = r := by simpa using h
                    obtain ⟨p1, t1⟩ := set_next_ok _ _ _ _ hs1
                    obtain ⟨p2, t2⟩ := set_prev_ok _ _ _ _ hs2
                    constructor
                    · rw [← h2, show ({ c2 with last := some t } : Col).page_map = c2.page_map from rfl, p2, p1]
                    · rw [← h2, show ({ c2 with last := some t } : Col).total_items = c2.total_items from rfl, t2, t1]
                  · split at h
                    · rename_i u hnx
                      split at h
                      · simp at h
                      · rename_i c3 hs3
                        split at h
                        · simp at h
                        · rename_i c4 hs4
                          have h4 : c4 = r := by simpa using h
                          subst h4
                          obtain ⟨p1, t1⟩ := set_next_ok _ _ _ _ hs1
                          obtain ⟨p2, t2⟩ := set_prev_ok _ _ _ _ hs2
                          obtain ⟨p3, t3⟩ := set_prev_ok _ _ _ _ hs3
                          obtain ⟨p4, t4⟩ := set_next_ok _ _ _ _ hs4
                          constructor
                          · rw [p4, p3, p2, p1]
                          · rw [t4, t3, t2, t1]
                    · simp at h
          · -- not after: at-the-beginning test or recursion
            split at h
            · simp at h
            · rename_i f hf
              split at h
              · split at h
                · simp at h
                · rename_i cB hsB
                  split at h
                  · simp at h
                  · rename_i cC hsC
                    have hC : cC = r := by simpa using h
                    subst hC
                    obtain ⟨pB, tB⟩ := set_prev_ok _ _ _ _ hsB
                    obtain ⟨pC, tC⟩ := set_next_ok _ _ _ _ hsC
                    constructor
                    · rw [pC, pB]
                    · rw [tC, tB]
              · exact ih _ h
        · simp at h

theorem addPrep_page_map (c : Col) (t : Nat) (pg : Page) :
    (addPrep c t pg).page_map = insertPM c.page_map pg.ldId t := rfl

theorem addPrep_total (c : Col) (t : Nat) (pg : Page) :
    (addPrep c t pg).total_items = c.total_items + 1 := rfl

theorem update_dict_page_map (c : Col) : (update_dict c).page_map = c.page_map := rfl

theorem update_dict_total (c : Col) : (update_dict c).total_items = c.total_items := rfl

theorem add_ok_spec (fuel : Nat) (c : Col) (t : Nat) (pg : Page) (r : Col)
    (hg : getPage c t = some pg) (h : add fuel c t = some (.ok r)) :
    (∃ c3, r = update_dict c3) ∧
    r.page_map = insertPM c.page_map pg.ldId t ∧
    r.total_items = c.total_items + 1 := by
  simp only [add, hg] at h
  split at h
  · have hr : update_dict { addPrep c t pg with first := some t, last := some t } = r := by
      simpa using h
    exact ⟨⟨_, hr.symm⟩, by rw [← hr]; rfl, by rw [← hr]; rfl⟩
  · split at h
    · split at h
      · simp at h
      · simp at h
      · rename_i c3 hsc
        have hr : update_dict c3 = r := by simpa using h
        obtain ⟨pm3, tot3⟩ := scan_ok_preserve _ _ _ _ _ hsc
        exact ⟨⟨c3, hr.symm⟩,
          by rw [← hr, update_dict_page_map, pm3, addPrep_page_map],
          by rw [← hr, update_dict_total, tot3, addPrep_total]⟩
    · have hr : update_dict (addPrep c t pg) = r := by simpa using h
      exact ⟨⟨_, hr.symm⟩,
        by rw [← hr, update_dict_page_map, addPrep_page_map],
        by rw [← hr, update_dict_total, addPrep_total]⟩

theorem fallsOff_scan_error (fuel : Nat) (c : Col) (t : Nat) (cur : Option Ref)
    (h : fallsOff fuel c t cur = true) :
    scan fuel c t cur = some (.error errBroken) := by
  induction fuel generalizing cur with
  | zero => simp [fallsOff] at h
  | succ n ih =>
    cases cur with
    | none => rfl
    | some rr =>
      cases rr with
      | pstr s => simp [fallsOff] at h
      | pobj ct =>
        rcases hgc : getPage c ct with _ | cpg
        · simp only [fallsOff, hgc] at h
          cases hgt : getPage c t <;> simp [hgt] at h
        · rcases hgt : getPage c t with _ | tpg
          · simp [fallsOff, hgc, hgt] at h
          · simp only [fallsOff, hgc, hgt] at h
            simp only [scan, hgc, hgt]
            by_cases hab : after tpg cpg = true
            · simp [hab] at h
            · simp only [hab, if_false, Bool.false_eq_true] at h ⊢
              rcases hf : c.first with _ | f
              · rw [hf] at h
                exact Bool.noConfusion h
              · rw [hf] at h
                have h2 : (if ldIdAtD c ct = ldIdAtD c f ∧ tpg.prev = none then false
                           else fallsOff n c t cpg.prev) = true := h
                by_cases hcond : ldIdAtD c ct = ldIdAtD c f ∧ tpg.prev = none
                · rw [if_pos hcond] at h2
                  exact Bool.noConfusion h2
                · rw [if_neg hcond] at h2
                  have hs := ih _ h2
                  show (if ldIdAtD c ct = ldIdAtD c f ∧ tpg.prev = none then _
                        else scan n c t cpg.prev) = some (Except.error errBroken)
                  rw [if_neg hcond]
                  exact hs

/-- C1: the claimed order invariant fails on the code.  Inserting pages with
strictly increasing end times 1, 2, 3 in the arrival order 1, 3, 2 completes
without error and leaves `totalItems = 3`, but the traversal from `first`
via `next` visits ids a, b, b (the middle page is linked to itself by the
insertion branch, which reads `cur.next` after `cur.set_next(to_add)`), so
it never reaches `last` and the order invariant is violated. -/
theorem C1_order_invariant_fails :
    isOkCol c1Build = true ∧
    (getOk c1Build).total_items = 3 ∧
    orderOk (getOk c1Build) = false ∧
    walkIds (getOk c1Build) = ["a", "b", "b"] :=
  ⟨rfl, rfl, rfl, rfl⟩

/-- C2: with A (end time 1) and C (end time 3) linked, adding B (end time 2)
does not produce the claimed links.  The code leaves `A.next = B` but sets
`B.prev = B` and `B.next = B` (instead of `B.prev = A`, `B.next = C`) and
leaves `C.prev = A` (instead of `C.prev = B`): tokens 0, 1, 2 hold A, C, B
respectively. -/
theorem C2_between_insertion_self_links :
    isOkCol c2Build = true ∧
    ldIdAtD c2Res 0 = "a" ∧ ldIdAtD c2Res 1 = "c" ∧ ldIdAtD c2Res 2 = "b" ∧
    end_time (getPageD c2Res 0) = 1 ∧
    end_time (getPageD c2Res 1) = 3 ∧
    end_time (getPageD c2Res 2) = 2 ∧
    (getPageD c2Res 0).next = some (.pobj 2) ∧
    (getPageD c2Res 2).prev = some (.pobj 2) ∧
    (getPageD c2Res 2).next = some (.pobj 2) ∧
    (getPageD c2Res 1).prev = some (.pobj 0) ∧
    (getPageD c2Res 2).prev ≠ some (.pobj 0) ∧
    (getPageD c2Res 2).next ≠ some (.pobj 1) ∧
    (getPageD c2Res 1).prev ≠ some (.pobj 2) :=
  ⟨rfl, rfl, rfl, rfl, rfl, rfl, rfl, rfl, rfl, rfl, rfl,
   by decide, by decide, by decide⟩

/-- C3: the serialise/restore round trip is not shuffle-invariant.  The
original collection (pages a, b, c in time order) satisfies the order
invariant; restoring a fresh collection from the same blobs in the order
c, a, b reproduces the `first`/`last` stubs and the count, but the restored
traversal is a, b, b instead of a, b, c: the ordering is not reproduced. -/
theorem C3_round_trip_shuffle_fails :
    orderOk c3Orig = true ∧
    walkIds c3Orig = ["a", "b", "c"] ∧
    isOkCol c3Restored = true ∧
    (getOk c3Restored).dicFirst = c3Orig.dicFirst ∧
    (getOk c3Restored).dicLast = c3Orig.dicLast ∧
    (getOk c3Restored).total_items = c3Orig.total_items ∧
    orderOk (getOk c3Restored) = false ∧
    walkIds (getOk c3Restored) = ["a", "b", "b"] ∧
    walkIds (getOk c3Restored) ≠ walkIds c3Orig := by
  decide

/-- C4 counterexample: adding a second page whose id `a` already belongs to
a stored page is not rejected: the call completes without any error, the
count rises to 2, and the `page_map` entry for `a` now points at the new
page (token 1) instead of the old one (token 0) — the state did change. -/
theorem C4_duplicate_add_not_rejected :
    isOkCol c4Dup = true ∧
    (getOk c4Dup).total_items = 2 ∧
    List.lookup "a" c4Base.page_map = some 0 ∧
    List.lookup "a" (getOk c4Dup).page_map = some 1 ∧
    getOk c4Dup ≠ c4Base :=
  ⟨rfl, rfl, rfl, rfl, by decide⟩

/-- C4 amended: `add` performs no duplicate check at all.  For every
collection already mapping id X to some page and every completed `add` of a
page with that same id, the call returns normally, the `page_map` entry for
X is silently overwritten with the new page, and `totalItems` is
incremented. -/
theorem C4_amended_duplicate_overwrites (fuel : Nat) (c : Col) (t t0 : Nat)
    (pg : Page) (r : Col)
    (_hdup : List.lookup pg.ldId c.page_map = some t0)
    (hg : getPage c t = some pg)
    (h : add fuel c t = some (.ok r)) :
    List.lookup pg.ldId r.page_map = some t ∧
    r.total_items = c.total_items + 1 := by
  obtain ⟨-, hpm, htot⟩ := add_ok_spec fuel c t pg r hg h
  rw [hpm, htot]
  exact ⟨lookup_insertPM c.page_map pg.ldId t, rfl⟩

theorem C4_amended_witness :
    List.lookup "a" (getOk c4Dup).page_map = some 1 ∧
    (getOk c4Dup).total_items = c4Heap.total_items + 1 :=
  C4_amended_duplicate_overwrites 2 c4Heap 1 0 c4DupPage (getOk c4Dup) rfl rfl rfl

/-- C5: whenever the backward insertion scan inside `add` falls off the list
(the cursor reaches a page whose `prev` is `None` without an insertion point
having been found), `add` does not return normally and in particular never
silently drops the page: it surfaces the broken-structure error to the
caller (in the source, the warning is printed and the next loop iteration
raises an uncaught exception). -/
theorem C5_falloff_error_surfaced (fuel : Nat) (c : Col) (t : Nat)
    (h : addScanFallsOff fuel c t = true) :
    add fuel c t = some (.error errBroken) := by
  rcases hg : getPage c t with _ | pg
  · simp [addScanFallsOff, hg] at h
  · simp only [addScanFallsOff, hg, Bool.and_eq_true, decide_eq_true_eq] at h
    obtain ⟨hgt1, hfo⟩ := h
    simp only [add, hg]
    rw [if_neg (by omega), if_pos hgt1,
        fallsOff_scan_error _ _ _ _ hfo]

theorem C5_falloff_witness :
    addScanFallsOff 3 c5Col 1 = true ∧
    add 3 c5Col 1 = some (.error errBroken) :=
  ⟨rfl, C5_falloff_error_surfaced 3 c5Col 1 rfl⟩

/-- C6: after exactly one `add` of a freshly constructed page to an empty
collection, `first` and `last` both reference that page (so their ids and
the page id coincide), `totalItems` is 1, and the page has neither a `prev`
nor a `next` link. -/
theorem C6_single_add (cid ld : String) (acts : List Act) :
    ∃ r, addPage (newCol cid) (mkPage ld acts) = some (.ok r) ∧
      r.first = some 0 ∧
      r.last = some 0 ∧
      ldIdAtD r 0 = ld ∧
      r.total_items = 1 ∧
      (getPageD r 0).prev = none ∧
      (getPageD r 0).next = none :=
  ⟨_, rfl, rfl, rfl, rfl, rfl, rfl, rfl⟩

/-- C7 counterexample: for a page whose only activity ended before the
epoch, `end_time` returns the epoch sentinel 0, not the maximum end time
(which is -1), so `end_time` is not the maximum over `orderedItems` in
general. -/
theorem C7_pre_epoch_counterexample :
    (c7Neg.items.map Act.endTime).max? = some (-1) ∧
    end_time c7Neg = 0 ∧
    (0 : Int) ≠ -1 :=
  ⟨rfl, rfl, by decide⟩

/-- C7 amended: `end_time` returns the epoch sentinel 0 on an empty page and
otherwise the maximum of the sentinel and the item end times (which equals
the maximum end time exactly when some item ends at or after the epoch);
`after` holds exactly when this value is strictly greater. -/
theorem C7_end_time_after_amended (p q : Page) (m : Int) :
    (p.items = [] → end_time p = 0) ∧
    ((p.items.map Act.endTime).max? = some m → end_time p = max 0 m) ∧
    (after p q = true ↔ end_time p > end_time q) := by
  refine ⟨?_, ?_, ?_⟩
  · intro hnil
    simp [end_time, hnil]
  · intro hm
    rw [end_time, foldl_step_eq]
    exact max?_foldl _ _ hm
  · simp [after]

theorem C7_amended_witness :
    end_time c7W = max 0 3 ∧
    (end_time (mkPage "e" []) = 0) ∧
    (after c7W c7Q = true ↔ end_time c7W > end_time c7Q) :=
  ⟨(C7_end_time_after_amended c7W c7Q 3).2.1 rfl,
   (C7_end_time_after_amended (mkPage "e" []) c7Q 3).1 rfl,
   (C7_end_time_after_amended c7W c7Q 3).2.2⟩

/-- C8: the stream membership check is not correct.  With a stream holding a
single page whose only activity is a `Create` for document `abc`,
`is_in_actstr` answers true for the unrelated document id `nothere` — no
stored activity references it — because the loop variable shadows the
parameter and the final comparison checks the rebound variable against
itself; consequently `handle_delete_request` would emit a `Delete` activity
for a document that is not in the stream. -/
theorem C8_membership_check_shadowed :
    okBoolOf (is_in_actstr "nothere" (some c8Cd) c8Pages) = some true ∧
    referencesDoc "nothere" c8Pages = false ∧
    referencesDoc "abc" c8Pages = true ∧
    okBoolOf (handle_delete_emits true true "nothere" (some c8Cd) c8Pages) = some true := by
  decide

/-- C9 counterexample: after `unset_prev` (and likewise `unset_next`) the
serialised page does not omit the field: it contains `prev` (respectively
`next`) with an explicit `null` value, because `unset_prev` assigns `None`
into the dictionary instead of popping the key. -/
theorem C9_unset_serialises_null :
    prevEntry (pageUnsetPrev c9Page) = some none ∧
    prevEntry (pageUnsetPrev c9Page) ≠ none ∧
    nextEntry (pageUnsetNext c9PageN) = some none ∧
    nextEntry (pageUnsetNext c9PageN) ≠ none :=
  ⟨rfl, by decide, rfl, by decide⟩

/-- C9 amended: field presence in the serialised page.  `set_prev`/`set_next`
with an absent neighbour pop the key (field omitted) and with a neighbour
store its id stub, and a fresh page omits both fields; but `unset_prev` and
`unset_next` store an explicit `null`, so after them the field is present
with value `null`. -/
theorem C9_amended_field_presence (p : Page) (u : Nat) (uid ld : String)
    (its : List Act) :
    prevEntry (pageSetPrevNone p) = none ∧
    prevEntry (pageSetPrevObj u uid p) = some (some uid) ∧
    prevEntry (pageUnsetPrev p) = some none ∧
    prevEntry (mkPage ld its) = none ∧
    nextEntry (pageSetNextNone p) = none ∧
    nextEntry (pageSetNextObj u uid p) = some (some uid) ∧
    nextEntry (pageUnsetNext p) = some none ∧
    nextEntry (mkPage ld its) = none :=
  ⟨rfl, rfl, rfl, rfl, rfl, rfl, rfl, rfl⟩

/-- C10: after every completed `add` and every completed `remove`, the
collection dictionary is synchronised with the member attributes:
`totalItems` equals `total_items` and `first`/`last` hold the id stub of the
first/last page, or `None` when absent (both operations end by calling
`_update_dict`). -/
theorem C10_dict_synchronized (fuel : Nat) (c d : Col) (t u : Nat) (r s : Col) :
    (add fuel c t = some (.ok r) → dict_synced r) ∧
    (remove d u = .ok s → dict_synced s) := by
  constructor
  · intro h
    rcases hg : getPage c t with _ | pg
    · simp [add, hg] at h
    · obtain ⟨⟨c3, hr⟩, -, -⟩ := add_ok_spec fuel c t pg r hg h
      subst hr
      exact ⟨rfl, rfl, rfl⟩
  · intro h
    rcases hg : getPage d u with _ | pg
    · simp [remove, hg] at h
    · simp only [remove, hg] at h
      rcases hc : removeCore { d with total_items := d.total_items - 1 } pg with e | c2
      · rw [hc] at h
        simp [Except.map] at h
      · rw [hc] at h
        simp only [Except.map, Except.ok.injEq] at h
        rw [← h]
        exact ⟨rfl, rfl, rfl⟩

theorem C10_witness :
    dict_synced c10AddRes ∧ dict_synced c10RemRes :=
  ⟨(C10_dict_synchronized 2 c10AddCol c10One 1 0 c10AddRes c10RemRes).1 rfl,
   (C10_dict_synchronized 2 c10AddCol c10One 1 0 c10AddRes c10RemRes).2 rfl⟩

end JKAS
